import Mathlib

/-!
Verification development for the jazz-standards playlist builder
(src/jazz_standards_playlist.py).  The file embeds the citation-extraction,
catalog-resolution and playlist-assembly logic of the script as executable
Lean definitions and proves properties of them.

Modelling conventions:
* HTTP transport, HTML parsing and the regex engine are the boundary; the
  raw pattern matches, the per-query catalog answers and the interactive
  console decisions enter the model as explicit function or list parameters.
* A catalog query either raises (SearchOutcome.err) or returns a candidate
  list (SearchOutcome.ok), mirroring sp.search inside the try block.
* Console input is a list of decision strings; exhausting the list models
  the run being abandoned while blocked at the prompt.
-/

/-- leadMatch n h is true when the character list n is an initial segment
of h (used to build the substring test that models the Python in operator). -/
def leadMatch : List Char → List Char → Bool
  | [], _ => true
  | _ :: _, [] => false
  | a :: as, b :: bs => a == b && leadMatch as bs

/-- subMatch n h is true when the character list n occurs contiguously
inside h. -/
def subMatch (n : List Char) : List Char → Bool
  | [] => n.isEmpty
  | c :: cs => leadMatch n (c :: cs) || subMatch n cs

/-- strContains hay needle models the Python expression needle in hay. -/
def strContains (hay needle : String) : Bool :=
  subMatch needle.toList hay.toList

/-- IsSubstr needle hay states, on the propositional side, that needle
occurs contiguously inside hay. -/
def IsSubstr (needle hay : String) : Prop :=
  ∃ l r, hay.toList = l ++ needle.toList ++ r

/-- ASCII lower-casing of one character, as Python lower() acts on the
ASCII inputs of this program. -/
def lowerChar (c : Char) : Char :=
  if 65 ≤ c.toNat ∧ c.toNat ≤ 90 then Char.ofNat (c.toNat + 32) else c

/-- pyLower models the Python lower() method. -/
def pyLower (s : String) : String := String.mk (s.toList.map lowerChar)

/-- dropLeadWs removes leading whitespace characters. -/
def dropLeadWs : List Char → List Char
  | [] => []
  | c :: cs => if c.isWhitespace then dropLeadWs cs else c :: cs

/-- pyStrip models the Python strip() method: whitespace removed from both
ends. -/
def pyStrip (s : String) : String :=
  String.mk ((dropLeadWs (dropLeadWs s.toList).reverse).reverse)

/-- Accumulator loop for pyWords: split at whitespace runs, dropping empty
pieces. -/
def pyWordsAux : List Char → List Char → List String
  | [], acc => if acc.isEmpty then [] else [String.mk acc.reverse]
  | c :: cs, acc =>
    if c.isWhitespace then
      if acc.isEmpty then pyWordsAux cs []
      else String.mk acc.reverse :: pyWordsAux cs []
    else pyWordsAux cs (c :: acc)

/-- pyWords models the Python split() method with no argument: the
whitespace-delimited words, with empty pieces dropped. -/
def pyWords (s : String) : List String := pyWordsAux s.toList []

/-- joinSep sep models the Python join method of the separator sep. -/
def joinSep (sep : String) : List String → String
  | [] => ""
  | [x] => x
  | x :: y :: rest => x ++ sep ++ joinSep sep (y :: rest)

/-- One Spotify search result, as read by search_spotify_track:
track uri, track name, the names of the listed artists, album name. -/
structure Candidate where
  uri : String
  name : String
  artists : List String
  album : String
deriving Repr, DecidableEq

/-- Outcome of one sp.search call: an exception or a list of items. -/
inductive SearchOutcome
  | err
  | ok (items : List Candidate)
deriving Repr, DecidableEq

/-- The whitespace-delimited words of the lower-cased title, modelling the
Python expression standard_title.lower().split() (which drops empty pieces). -/
def titleWords (title : String) : List String :=
  pyWords (pyLower title)

/-- titleWordAny is the clause any(word in track_name for word in
standard_title.lower().split()) from search_spotify_track. -/
def titleWordAny (title trackName : String) : Bool :=
  (titleWords title).any (fun w => strContains trackName w)

/-- The title half of the strong-match test (line 177 of the source):
some word of the lower-cased title occurs in the track name, or the whole
lower-cased title occurs in the track name.  The track name is passed
already lower-cased, as at the call site. -/
def title_match (standardTitle trackName : String) : Bool :=
  titleWordAny standardTitle trackName || strContains trackName (pyLower standardTitle)

/-- The artist half of the strong-match test (line 176): bidirectional
containment between the lower-cased citation artist and some lower-cased
candidate artist name. -/
def artist_match (artist : String) (c : Candidate) : Bool :=
  (c.artists.map pyLower).any
    (fun an => strContains an (pyLower artist) || strContains (pyLower artist) an)

/-- Tier-1 (strong match) test, lines 176-179 of the source. -/
def isTier1 (title artist : String) (c : Candidate) : Bool :=
  artist_match artist c && title_match title (pyLower c.name)

/-- Tier-2 (weak candidate) test, lines 191-193: some title word occurs in
the track name and the citation artist is contained in some candidate
artist name (one direction only). -/
def isTier2 (title artist : String) (c : Candidate) : Bool :=
  titleWordAny title (pyLower c.name)
    && (c.artists.map pyLower).any (fun an => strContains an (pyLower artist))

/-- Tiered selection over one non-empty result list (lines 167-199):
first candidate passing Tier-1 (flagged true), else first passing Tier-2,
else the first result; none only for an empty list. -/
def selectBest (title artist : String) : List Candidate → Option (Candidate × Bool)
  | [] => none
  | x :: xs =>
    match (x :: xs).find? (isTier1 title artist) with
    | some c => some (c, true)
    | none =>
      match (x :: xs).find? (isTier2 title artist) with
      | some c => some (c, false)
      | none => some (x, false)

/-- The three possible valid console decisions at the confirmation prompt. -/
inductive PromptOutcome
  | accept
  | reject
  | skipAll
deriving Repr, DecidableEq

/-- The while-True confirmation prompt (lines 215-227): consume console
inputs, lower-cased and stripped, until one of y/yes, n/no, s/skip; returns
the decision, the remaining inputs, and the updated count of prompts shown.
none models the prompt blocking forever because input ran out. -/
def promptLoop : List String → Nat → Option PromptOutcome × List String × Nat
  | [], p => (none, [], p)
  | d :: ds, p =>
    let r := pyStrip (pyLower d)
    if r = "y" || r = "yes" then (some PromptOutcome.accept, ds, p + 1)
    else if r = "n" || r = "no" then (some PromptOutcome.reject, ds, p + 1)
    else if r = "s" || r = "skip" then (some PromptOutcome.skipAll, ds, p + 1)
    else promptLoop ds (p + 1)

/-- Result of one search_spotify_track call: the returned uri (none for no
match), the queries actually sent to the catalog in order, and the number
of console prompts consumed. -/
structure ResolveTrace where
  result : Option String
  issued : List String
  prompts : Nat
deriving Repr, DecidableEq

/-- The query loop of search_spotify_track (lines 163-230).  Per query:
a search error aborts the whole call with no match (the try block wraps the
entire loop); an empty result list falls through to the next query; a
Tier-1 selection returns at once; otherwise the proposal goes to the
prompt, where accept returns it, skip returns no match, and reject moves
on to the next query. -/
def queryLoop (title artist : String) (catalog : String → SearchOutcome) :
    List String → List String → List String → Nat → ResolveTrace
  | [], _ds, issued, prompts => { result := none, issued := issued.reverse, prompts := prompts }
  | q :: qs, ds, issued, prompts =>
    match catalog q with
    | SearchOutcome.err =>
        { result := none, issued := (q :: issued).reverse, prompts := prompts }
    | SearchOutcome.ok items =>
      match selectBest title artist items with
      | none => queryLoop title artist catalog qs ds (q :: issued) prompts
      | some (best, true) =>
          { result := some best.uri, issued := (q :: issued).reverse, prompts := prompts }
      | some (best, false) =>
        match promptLoop ds prompts with
        | (none, _, p2) =>
            { result := none, issued := (q :: issued).reverse, prompts := p2 }
        | (some PromptOutcome.accept, _, p2) =>
            { result := some best.uri, issued := (q :: issued).reverse, prompts := p2 }
        | (some PromptOutcome.skipAll, _, p2) =>
            { result := none, issued := (q :: issued).reverse, prompts := p2 }
        | (some PromptOutcome.reject, ds2, p2) =>
            queryLoop title artist catalog qs ds2 (q :: issued) p2

/-- The three query strings, in the fixed order of lines 157-161. -/
def resolverQueries (standard_title artist recording_info : String) : List String :=
  [artist ++ " " ++ standard_title,
   artist ++ " " ++ recording_info,
   standard_title ++ " " ++ artist]

/-- search_spotify_track as a function of the citation fields, the catalog
answers and the console inputs. -/
def search_spotify_track (standard_title artist recording_info : String)
    (catalog : String → SearchOutcome) (decisions : List String) : ResolveTrace :=
  queryLoop standard_title artist catalog
    (resolverQueries standard_title artist recording_info) decisions [] 0

/-- One extracted recording citation, the dict built at lines 108-118:
keys artist, info, full_text. -/
structure Recording where
  artist : String
  info : String
  full_text : String
deriving Repr, DecidableEq

/-- One raw value produced by re.findall for one of the artist patterns.
For a pattern with two or more capture groups findall yields a tuple of
group strings; for the single-group pattern (the and His Orchestra one,
line 101) findall yields the matched group as a plain string, so that the
normalization loop then indexes characters of that string. -/
inductive RawMatch
  | tuple (groups : List String)
  | single (s : String)
deriving Repr, DecidableEq

/-- charStr c is the one-character string holding c. -/
def charStr (c : Char) : String := String.mk [c]

/-- The normalization of one findall result (lines 106-118).  len(match),
match[0], match[1] and the join run over tuple entries for a tuple result
and over individual characters for a plain-string result; a result of
length zero appends nothing. -/
def normalizeMatch : RawMatch → Option Recording
  | RawMatch.tuple gs =>
    match gs with
    | a :: b :: _ =>
        some { artist := pyStrip a, info := pyStrip b,
               full_text := joinSep " - " gs }
    | [a] => some { artist := pyStrip a, info := "", full_text := a }
    | [] => none
  | RawMatch.single s =>
    match s.toList with
    | a :: b :: _ =>
        some { artist := pyStrip (charStr a), info := pyStrip (charStr b),
               full_text := joinSep " - " (s.toList.map charStr) }
    | [a] => some { artist := pyStrip (charStr a), info := "", full_text := charStr a }
    | [] => none

/-- The duplicate-removal loop of lines 120-127: keep a recording when its
lower-cased artist has not been seen, first occurrence wins. -/
def dedupByArtist : List String → List Recording → List Recording
  | _, [] => []
  | seen, r :: rs =>
    if pyLower r.artist ∈ seen then dedupByArtist seen rs
    else r :: dedupByArtist (pyLower r.artist :: seen) rs

/-- Deduplicate then truncate to the first 6 recordings (line 129). -/
def extractFinal (recs : List Recording) : List Recording :=
  (dedupByArtist [] recs).take 6

/-- scrape_recommended_recordings, abstracted over the raw findall output
for the page at the given url: normalize every raw match in order, then
deduplicate by lower-cased artist and truncate to 6.  A fetch or parse
failure is the rawMatches value [] for that url. -/
def scrape_recommended_recordings (rawMatches : String → List RawMatch)
    (url : String) : List Recording :=
  extractFinal ((rawMatches url).filterMap normalizeMatch)

/-- One harvested standard (lines 59-62): link text and absolute url. -/
structure Work where
  title : String
  url : String
deriving Repr, DecidableEq

/-- Observable buffer events of a run: the buffer length right after each
offer of a resolved track, and the size of each batch sent to the playlist. -/
inductive RunEvent
  | offer (bufLen : Nat)
  | flush (batchLen : Nat)
deriving Repr, DecidableEq

/-- isFlushEvent tells flush events apart from offer events. -/
def isFlushEvent : RunEvent → Bool
  | RunEvent.flush _ => true
  | _ => false

/-- Mutable state of the run loop: the pending all_track_uris buffer, the
batches handed to add_tracks_to_playlist so far, the event log, and the
number of search_spotify_track calls made. -/
structure RunState where
  buf : List String
  appends : List (List String)
  events : List RunEvent
  searches : Nat
deriving Repr, DecidableEq

/-- Processing of one recording inside the inner loop (lines 293-305):
call the resolver; when it returns a uri that is non-empty (Python
truthiness) and not already in the pending buffer, append it. -/
def offerStep (title : String)
    (searchTrack : String → String → String → Option String)
    (st : RunState) (rec : Recording) : RunState :=
  let found := searchTrack title rec.artist rec.info
  let buf2 :=
    match found with
    | none => st.buf
    | some u => if u ≠ "" ∧ u ∉ st.buf then st.buf ++ [u] else st.buf
  { buf := buf2, appends := st.appends,
    events := st.events ++ [RunEvent.offer buf2.length],
    searches := st.searches + 1 }

/-- The per-standard batch step of lines 308-310: when at least 50 uris are
pending, send the first 50 and keep the rest. -/
def flushCheck (st : RunState) : RunState :=
  if 50 ≤ st.buf.length then
    { buf := st.buf.drop 50,
      appends := st.appends ++ [st.buf.take 50],
      events := st.events ++ [RunEvent.flush (st.buf.take 50).length],
      searches := st.searches }
  else st

/-- One iteration of the standards loop (lines 278-310): scrape the page;
with no recordings, continue (skipping the flush check); otherwise resolve
each recording in order and then run the flush check. -/
def processStandard (searchTrack : String → String → String → Option String)
    (rawMatches : String → List RawMatch) (st : RunState) (w : Work) : RunState :=
  match scrape_recommended_recordings rawMatches w.url with
  | [] => st
  | r :: rs => flushCheck ((r :: rs).foldl (offerStep w.title searchTrack) st)

/-- Observable outcome of run: whether a playlist was created, the batches
sent to the playlist in order, the buffer event log, and the number of
resolver calls. -/
structure RunTrace where
  created : Bool
  appends : List (List String)
  events : List RunEvent
  searches : Nat
deriving Repr, DecidableEq

/-- The state at the start of a run: nothing pending, nothing sent. -/
def initRunState : RunState :=
  { buf := [], appends := [], events := [], searches := 0 }

/-- The trailing send of lines 313-314: whatever is still pending goes out
as one last batch; nothing happens on an empty buffer. -/
def finalFlush (st : RunState) : RunState :=
  if st.buf = [] then st
  else { st with appends := st.appends ++ [st.buf],
                 events := st.events ++ [RunEvent.flush st.buf.length] }

/-- run (lines 256-327): with no harvested standards, stop before creating
the playlist; otherwise create it, process every standard, and finally send
whatever is still pending (lines 313-314). -/
def run (standards : List Work) (rawMatches : String → List RawMatch)
    (searchTrack : String → String → String → Option String) : RunTrace :=
  match standards with
  | [] => { created := false, appends := [], events := [], searches := 0 }
  | w :: ws =>
    let st2 := finalFlush ((w :: ws).foldl (processStandard searchTrack rawMatches) initRunState)
    { created := true, appends := st2.appends, events := st2.events,
      searches := st2.searches }

theorem leadMatch_iff : ∀ (n h : List Char), leadMatch n h = true ↔ ∃ r, h = n ++ r
  | [], h => by simp [leadMatch]
  | _ :: _, [] => by simp [leadMatch]
  | a :: as, b :: bs => by
    simp only [leadMatch, List.cons_append, Bool.and_eq_true, beq_iff_eq,
      leadMatch_iff as bs, List.cons.injEq]
    constructor
    · rintro ⟨h1, r, h2⟩; exact ⟨r, h1.symm, h2⟩
    · rintro ⟨r, h1, h2⟩; exact ⟨h1.symm, r, h2⟩

theorem subMatch_iff : ∀ (n h : List Char), subMatch n h = true ↔ ∃ l r, h = l ++ n ++ r
  | n, [] => by
    cases n with
    | nil =>
      simp only [subMatch, List.isEmpty]
      constructor
      · intro _; exact ⟨[], [], rfl⟩
      · intro _; trivial
    | cons a as => simp [subMatch]
  | n, c :: cs => by
    simp only [subMatch, Bool.or_eq_true, leadMatch_iff, subMatch_iff n cs]
    constructor
    · rintro (⟨r, hr⟩ | ⟨l, r, hr⟩)
      · exact ⟨[], r, by simp [hr]⟩
      · exact ⟨c :: l, r, by simp [hr]⟩
    · rintro ⟨l, r, hr⟩
      cases l with
      | nil => exact Or.inl ⟨r, by simpa using hr⟩
      | cons x xs =>
        simp only [List.cons_append, List.cons.injEq] at hr
        exact Or.inr ⟨xs, r, hr.2⟩

theorem strContains_iff (hay needle : String) :
    strContains hay needle = true ↔ IsSubstr needle hay := by
  rw [strContains, IsSubstr, subMatch_iff]

/-- title_match_spec transcribes the claim sentence for the title half of
the Tier-1 test word for word: EVERY whitespace-delimited word of the
lower-cased work title occurs in the track name, or the whole lower-cased
title occurs in the track name.  It exists only to be compared against
title_match, which the source builds with any rather than all. -/
def title_match_spec (standardTitle trackName : String) : Bool :=
  (titleWords standardTitle).all (fun w => strContains trackName w)
    || strContains trackName (pyLower standardTitle)

/-- C3 counterexample: for the work title Autumn Leaves and the track name
Autumn In New York, the code accepts the title half (the word autumn
occurs) while the claimed every-word-or-whole-title condition fails, so the
claimed equivalence is false at this input. -/
theorem title_match_every_word_cx :
    title_match "Autumn Leaves" (pyLower "Autumn In New York") = true
      ∧ title_match_spec "Autumn Leaves" (pyLower "Autumn In New York") = false := by
  decide

/-- C3 (amended): the title half of the Tier-1 match test holds exactly
when AT LEAST ONE whitespace-delimited lower-cased word of the work title
occurs as a substring of the lower-cased candidate track name, or the whole
lower-cased work title does. -/
theorem title_match_characterization (title : String) (c : Candidate) :
    title_match title (pyLower c.name) = true ↔
      ((∃ w, w ∈ titleWords title ∧ IsSubstr w (pyLower c.name))
        ∨ IsSubstr (pyLower title) (pyLower c.name)) := by
  simp only [title_match, titleWordAny, Bool.or_eq_true, List.any_eq_true,
    strContains_iff]

/-- C9 (code bug): for the single-group and-His-Orchestra pattern, findall
yields a plain string, and the normalization loop then indexes characters
of that string: the raw match Duke Ellington produces artist D, info u and
a character-joined display text, not artist Duke Ellington with empty info. -/
theorem normalize_single_group_bug :
    normalizeMatch (RawMatch.single "Duke Ellington")
      = some { artist := "D", info := "u",
               full_text := "D - u - k - e -   - E - l - l - i - n - g - t - o - n" }
    ∧ (normalizeMatch (RawMatch.single "Duke Ellington")).map Recording.artist
        ≠ some "Duke Ellington" := by
  decide

/-- C10: with an empty harvested standards list, run stops at once: no
playlist is created, no batch is ever appended, no buffer event happens and
no catalog search is issued. -/
theorem run_empty_standards (rawMatches : String → List RawMatch)
    (searchTrack : String → String → String → Option String) :
    run [] rawMatches searchTrack
      = { created := false, appends := [], events := [], searches := 0 } := rfl

theorem selectBest_tier1 (title artist : String) (items : List Candidate) (c : Candidate)
    (h : items.find? (isTier1 title artist) = some c) :
    selectBest title artist items = some (c, true) := by
  cases items with
  | nil => simp at h
  | cons x xs =>
    rw [selectBest, h]

theorem queryLoop_skip_empty (title artist : String) (catalog : String → SearchOutcome) :
    ∀ (qs1 rest ds issued : List String) (p : Nat),
      (∀ q ∈ qs1, catalog q = SearchOutcome.ok []) →
      queryLoop title artist catalog (qs1 ++ rest) ds issued p
        = queryLoop title artist catalog rest ds (qs1.reverse ++ issued) p := by
  intro qs1
  induction qs1 with
  | nil => intro rest ds issued p _; simp
  | cons q qs ih =>
    intro rest ds issued p h
    have hq : catalog q = SearchOutcome.ok [] := h q (List.mem_cons_self _ _)
    have hqs : ∀ x ∈ qs, catalog x = SearchOutcome.ok [] :=
      fun x hx => h x (List.mem_cons_of_mem _ hx)
    rw [List.cons_append]
    rw [show queryLoop title artist catalog (q :: (qs ++ rest)) ds issued p
          = queryLoop title artist catalog (qs ++ rest) ds (q :: issued) p from by
        simp [queryLoop, hq, selectBest]]
    rw [ih rest ds (q :: issued) p hqs]
    simp [List.append_assoc]

/-- C1 (amended): when every query before the first query whose candidate
list contains a Tier-1 match returns zero candidates without error, the
resolver returns the track of the first Tier-1 candidate (in result order)
of that query, accepts it automatically with no interactive prompt, and
issues no later query. -/
theorem resolver_tier1_first_nonempty
    (standard_title artist recording_info : String)
    (catalog : String → SearchOutcome) (decisions : List String)
    (qs1 : List String) (q : String) (qs2 : List String)
    (items : List Candidate) (c : Candidate)
    (hsplit : resolverQueries standard_title artist recording_info = qs1 ++ q :: qs2)
    (hempty : ∀ p ∈ qs1, catalog p = SearchOutcome.ok [])
    (hq : catalog q = SearchOutcome.ok items)
    (hfind : items.find? (isTier1 standard_title artist) = some c) :
    search_spotify_track standard_title artist recording_info catalog decisions
      = { result := some c.uri, issued := qs1 ++ [q], prompts := 0 } := by
  unfold search_spotify_track
  rw [hsplit, queryLoop_skip_empty standard_title artist catalog qs1 (q :: qs2)
    decisions [] 0 hempty]
  have hsel := selectBest_tier1 standard_title artist items c hfind
  simp [queryLoop, hq, hsel]

/-- A Tier-1 candidate for Autumn Leaves cited to Bill Evans. -/
def candB : Candidate :=
  { uri := "spotify:track:B", name := "Autumn Leaves",
    artists := ["Bill Evans"], album := "Portrait in Jazz" }

/-- A candidate matching neither the Tier-1 nor the Tier-2 test for the
Autumn Leaves citation. -/
def candW : Candidate :=
  { uri := "spotify:track:W", name := "Unrelated Song",
    artists := ["Somebody Else"], album := "Album W" }

/-- Catalog for the C1 witness: query 1 empty, query 2 holds candB. -/
def catalogTier1Wit (q : String) : SearchOutcome :=
  if q = "Bill Evans 1959" then SearchOutcome.ok [candB] else SearchOutcome.ok []

theorem resolver_tier1_witness :
    search_spotify_track "Autumn Leaves" "Bill Evans" "1959" catalogTier1Wit ["n"]
      = { result := some "spotify:track:B",
          issued := ["Bill Evans Autumn Leaves", "Bill Evans 1959"], prompts := 0 } :=
  resolver_tier1_first_nonempty "Autumn Leaves" "Bill Evans" "1959" catalogTier1Wit ["n"]
    ["Bill Evans Autumn Leaves"] "Bill Evans 1959" ["Autumn Leaves Bill Evans"]
    [candB] candB (by decide) (by decide) (by decide) (by decide)

/-- Catalog for the C1 counterexample: query 1 returns the weak candidate
candW, query 2 returns the Tier-1 candidate candB. -/
def catalogTier1Cx (q : String) : SearchOutcome :=
  if q = "Bill Evans Autumn Leaves" then SearchOutcome.ok [candW]
  else if q = "Bill Evans 1959" then SearchOutcome.ok [candB]
  else SearchOutcome.ok []

/-- C1 counterexample: the candidate list of query 2 contains a Tier-1
match, yet the code first proposes the non-Tier-1 query-1 candidate at an
interactive prompt and, on acceptance, returns that track and never issues
query 2 — against the claimed automatic, prompt-free return of the Tier-1
track. -/
theorem resolver_tier1_cx :
    isTier1 "Autumn Leaves" "Bill Evans" candB = true
    ∧ isTier1 "Autumn Leaves" "Bill Evans" candW = false
    ∧ search_spotify_track "Autumn Leaves" "Bill Evans" "1959" catalogTier1Cx ["y"]
        = { result := some "spotify:track:W",
            issued := ["Bill Evans Autumn Leaves"], prompts := 1 } := by
  decide

/-- Disambiguation as claim C4 words it, written out only to be compared
with the code: on reject, keep searching within the same result list,
proposing the next remaining candidate; with none left, no match. -/
def specSameListSearch (ds : List String) : List Candidate → Option String
  | [] => none
  | c :: cs =>
    match promptLoop ds 0 with
    | (some PromptOutcome.accept, _, _) => some c.uri
    | (some PromptOutcome.reject, ds2, _) => specSameListSearch ds2 cs
    | _ => none

/-- A first non-Tier-1 candidate for the C4 inputs. -/
def candN1 : Candidate :=
  { uri := "spotify:track:N1", name := "Song One", artists := ["Other One"], album := "A1" }

/-- A second non-Tier-1 candidate for the C4 inputs. -/
def candN2 : Candidate :=
  { uri := "spotify:track:N2", name := "Song Two", artists := ["Other Two"], album := "A2" }

/-- Catalog for the C4 counterexample: query 1 returns two non-Tier-1
candidates, the other queries return nothing. -/
def catalogRejectCx (q : String) : SearchOutcome :=
  if q = "Bill Evans Autumn Leaves" then SearchOutcome.ok [candN1, candN2]
  else SearchOutcome.ok []

/-- C4 counterexample: with decisions reject then accept, searching within
the same result list (the claimed behaviour) accepts the second candidate,
while the code abandons the list after the rejection, issues the remaining
queries (both empty) and ends with no match. -/
theorem resolver_reject_cx :
    specSameListSearch ["n", "y"] [candN1, candN2] = some "spotify:track:N2"
    ∧ search_spotify_track "Autumn Leaves" "Bill Evans" "1959" catalogRejectCx ["n", "y"]
        = { result := none,
            issued := resolverQueries "Autumn Leaves" "Bill Evans" "1959",
            prompts := 1 } := by
  decide

/-- C4 (amended): when a non-Tier-1 proposal from the current query is
rejected, the resolver abandons that query and its remaining candidates and
continues with the remaining queries in the fixed order; and when no
queries remain, the overall result is no match. -/
theorem resolver_reject_moves_on
    (title artist : String) (catalog : String → SearchOutcome)
    (q : String) (qs ds issued : List String) (p : Nat)
    (items : List Candidate) (best : Candidate) (ds2 : List String) (p2 : Nat)
    (hq : catalog q = SearchOutcome.ok items)
    (hsel : selectBest title artist items = some (best, false))
    (hprompt : promptLoop ds p = (some PromptOutcome.reject, ds2, p2)) :
    queryLoop title artist catalog (q :: qs) ds issued p
      = queryLoop title artist catalog qs ds2 (q :: issued) p2
    ∧ queryLoop title artist catalog [] ds2 (q :: issued) p2
      = { result := none, issued := (q :: issued).reverse, prompts := p2 } := by
  constructor
  · simp [queryLoop, hq, hsel, hprompt]
  · rfl

/-- Catalog for the C4 witness: the only query with results is q1. -/
def catalogRejectWit (q : String) : SearchOutcome :=
  if q = "q1" then SearchOutcome.ok [candN1] else SearchOutcome.ok []

theorem resolver_reject_witness :
    queryLoop "Autumn Leaves" "Bill Evans" catalogRejectWit ["q1"] ["n"] [] 0
      = queryLoop "Autumn Leaves" "Bill Evans" catalogRejectWit [] [] ["q1"] 1
    ∧ queryLoop "Autumn Leaves" "Bill Evans" catalogRejectWit [] [] ["q1"] 1
      = { result := none, issued := ["q1"], prompts := 1 } :=
  resolver_reject_moves_on "Autumn Leaves" "Bill Evans" catalogRejectWit "q1" [] ["n"] [] 0
    [candN1] candN1 [] 1 (by decide) (by decide) (by decide)

/-- C5 (amended): a search error on some query makes the resolver catch it
and return no match at once, issuing no later query; and when every query
returns zero candidates without error the resolver issues all of them and
returns no match.  In both cases no prompt occurs and no exception escapes
the call. -/
theorem resolver_error_policy :
    (∀ (standard_title artist recording_info : String)
       (catalog : String → SearchOutcome) (decisions : List String)
       (qs1 : List String) (q : String) (qs2 : List String),
       resolverQueries standard_title artist recording_info = qs1 ++ q :: qs2 →
       (∀ p ∈ qs1, catalog p = SearchOutcome.ok []) →
       catalog q = SearchOutcome.err →
       search_spotify_track standard_title artist recording_info catalog decisions
         = { result := none, issued := qs1 ++ [q], prompts := 0 })
    ∧ (∀ (standard_title artist recording_info : String)
         (catalog : String → SearchOutcome) (decisions : List String),
         (∀ q ∈ resolverQueries standard_title artist recording_info,
            catalog q = SearchOutcome.ok []) →
         search_spotify_track standard_title artist recording_info catalog decisions
           = { result := none,
               issued := resolverQueries standard_title artist recording_info,
               prompts := 0 }) := by
  constructor
  · intro t a i catalog ds qs1 q qs2 hsplit hempty herr
    unfold search_spotify_track
    rw [hsplit, queryLoop_skip_empty t a catalog qs1 (q :: qs2) ds [] 0 hempty]
    simp [queryLoop, herr]
  · intro t a i catalog ds hempty
    unfold search_spotify_track
    have h2 := queryLoop_skip_empty t a catalog (resolverQueries t a i) [] ds [] 0 hempty
    rw [List.append_nil] at h2
    rw [h2]
    simp [queryLoop]

/-- Catalog for the first C5 witness conjunct: query 1 raises. -/
def catalogErrWit (q : String) : SearchOutcome :=
  if q = "Bill Evans Autumn Leaves" then SearchOutcome.err else SearchOutcome.ok []

/-- Catalog for the second C5 witness conjunct: everything empty. -/
def catalogAllEmptyWit (_q : String) : SearchOutcome := SearchOutcome.ok []

theorem resolver_error_witness :
    search_spotify_track "Autumn Leaves" "Bill Evans" "1959" catalogErrWit []
      = { result := none, issued := ["Bill Evans Autumn Leaves"], prompts := 0 }
    ∧ search_spotify_track "Autumn Leaves" "Bill Evans" "1959" catalogAllEmptyWit []
      = { result := none,
          issued := resolverQueries "Autumn Leaves" "Bill Evans" "1959",
          prompts := 0 } :=
  ⟨resolver_error_policy.1 "Autumn Leaves" "Bill Evans" "1959" catalogErrWit []
      [] "Bill Evans Autumn Leaves" ["Bill Evans 1959", "Autumn Leaves Bill Evans"]
      (by decide) (by decide) (by decide),
   resolver_error_policy.2 "Autumn Leaves" "Bill Evans" "1959" catalogAllEmptyWit []
      (by decide)⟩

/-- Catalog for the C5 counterexample: query 1 raises while query 2 would
return a Tier-1 candidate. -/
def catalogErrCx (q : String) : SearchOutcome :=
  if q = "Bill Evans Autumn Leaves" then SearchOutcome.err
  else if q = "Bill Evans 1959" then SearchOutcome.ok [candB]
  else SearchOutcome.ok []

/-- C5 counterexample: the first search raises and the second query would
return a Tier-1 candidate; the claim predicts the remaining queries are
still issued and a match found, but the code aborts the whole call at the
error, issuing only the first query and returning no match. -/
theorem resolver_error_cx :
    isTier1 "Autumn Leaves" "Bill Evans" candB = true
    ∧ catalogErrCx "Bill Evans 1959" = SearchOutcome.ok [candB]
    ∧ search_spotify_track "Autumn Leaves" "Bill Evans" "1959" catalogErrCx []
        = { result := none, issued := ["Bill Evans Autumn Leaves"], prompts := 0 } := by
  decide

theorem dedupByArtist_mem : ∀ (recs : List Recording) (seen : List String) (r : Recording),
    r ∈ dedupByArtist seen recs →
    pyLower r.artist ∉ seen
    ∧ ∃ l1 l2, recs = l1 ++ r :: l2
        ∧ ∀ x ∈ l1, pyLower x.artist ∈ seen ∨ pyLower x.artist ≠ pyLower r.artist := by
  intro recs
  induction recs with
  | nil => intro seen r h; simp [dedupByArtist] at h
  | cons x xs ih =>
    intro seen r h
    simp only [dedupByArtist] at h
    by_cases hx : pyLower x.artist ∈ seen
    · rw [if_pos hx] at h
      obtain ⟨h1, l1, l2, hdec, hkey⟩ := ih seen r h
      refine ⟨h1, x :: l1, l2, by simp [hdec], ?_⟩
      intro y hy
      rcases List.mem_cons.mp hy with hxy | hy2
      · rw [hxy]; exact Or.inl hx
      · exact hkey y hy2
    · rw [if_neg hx] at h
      rcases List.mem_cons.mp h with hxr | h2
      · refine ⟨by rw [hxr]; exact hx, [], xs, by rw [hxr]; rfl, ?_⟩
        intro y hy; simp at hy
      · obtain ⟨h1, l1, l2, hdec, hkey⟩ := ih _ r h2
        have hne : pyLower r.artist ≠ pyLower x.artist := by
          intro he
          exact h1 (by rw [he]; exact List.mem_cons_self _ _)
        refine ⟨fun hc => h1 (List.mem_cons_of_mem _ hc), x :: l1, l2, by simp [hdec], ?_⟩
        intro y hy
        rcases List.mem_cons.mp hy with hxy | hy2
        · rw [hxy]; exact Or.inr (fun he => hne he.symm)
        · rcases hkey y hy2 with hin | hne2
          · rcases List.mem_cons.mp hin with heq | hin2
            · exact Or.inr (by rw [heq]; exact fun he => hne he.symm)
            · exact Or.inl hin2
          · exact Or.inr hne2

theorem dedupByArtist_pairwise : ∀ (recs : List Recording) (seen : List String),
    List.Pairwise (fun a b => pyLower a.artist ≠ pyLower b.artist)
      (dedupByArtist seen recs) := by
  intro recs
  induction recs with
  | nil => intro seen; simp [dedupByArtist]
  | cons x xs ih =>
    intro seen
    simp only [dedupByArtist]
    by_cases hx : pyLower x.artist ∈ seen
    · rw [if_pos hx]; exact ih seen
    · rw [if_neg hx]
      refine List.Pairwise.cons ?_ (ih _)
      intro y hy
      have hnot := (dedupByArtist_mem xs (pyLower x.artist :: seen) y hy).1
      exact fun he => hnot (by rw [← he]; exact List.mem_cons_self _ _)

/-- C8: for every page, the extracted citation sequence has at most 6
entries, no two entries share a case-insensitive artist, and each kept
entry is the first normalized raw match carrying its case-insensitive
artist. -/
theorem extractor_citation_dedup (rawMatches : String → List RawMatch) (url : String) :
    (scrape_recommended_recordings rawMatches url).length ≤ 6
    ∧ List.Pairwise (fun a b => pyLower a.artist ≠ pyLower b.artist)
        (scrape_recommended_recordings rawMatches url)
    ∧ ∀ r ∈ scrape_recommended_recordings rawMatches url,
        ∃ l1 l2, (rawMatches url).filterMap normalizeMatch = l1 ++ r :: l2
          ∧ ∀ x ∈ l1, pyLower x.artist ≠ pyLower r.artist := by
  simp only [scrape_recommended_recordings, extractFinal]
  refine ⟨?_, ?_, ?_⟩
  · rw [List.length_take]
    exact min_le_left _ _
  · exact (dedupByArtist_pairwise _ []).sublist (List.take_sublist _ _)
  · intro r hr
    have hr2 : r ∈ dedupByArtist [] ((rawMatches url).filterMap normalizeMatch) :=
      List.take_subset _ _ hr
    obtain ⟨h1, l1, l2, hdec, hkey⟩ := dedupByArtist_mem _ [] r hr2
    refine ⟨l1, l2, hdec, ?_⟩
    intro x hx
    rcases hkey x hx with hin | hne
    · simp at hin
    · exact hne

/-- Raw matches for the C8 witness: two citations with the same artist up
to case, then a third distinct one. -/
def rawDedupWit (_url : String) : List RawMatch :=
  [RawMatch.tuple ["Bill Evans", "1959"], RawMatch.tuple ["BILL EVANS", "1961"],
   RawMatch.tuple ["Miles Davis", "1958"]]

/-- The first normalized Bill Evans citation of rawDedupWit. -/
def recBill : Recording :=
  { artist := "Bill Evans", info := "1959", full_text := "Bill Evans - 1959" }

theorem extractor_citation_dedup_witness :
    recBill ∈ scrape_recommended_recordings rawDedupWit "url"
    ∧ ∃ l1 l2, (rawDedupWit "url").filterMap normalizeMatch = l1 ++ recBill :: l2
        ∧ ∀ x ∈ l1, pyLower x.artist ≠ pyLower recBill.artist :=
  ⟨by decide, (extractor_citation_dedup rawDedupWit "url").2.2 recBill (by decide)⟩

theorem offerStep_appends (title : String)
    (s : String → String → String → Option String) (st : RunState) (r : Recording) :
    (offerStep title s st r).appends = st.appends := rfl

theorem offerStep_events (title : String)
    (s : String → String → String → Option String) (st : RunState) (r : Recording) :
    (offerStep title s st r).events
      = st.events ++ [RunEvent.offer (offerStep title s st r).buf.length] := rfl

theorem offerStep_buf (title : String)
    (s : String → String → String → Option String) (st : RunState) (r : Recording) :
    (offerStep title s st r).buf = st.buf
    ∨ ∃ u, u ∉ st.buf ∧ (offerStep title s st r).buf = st.buf ++ [u] := by
  cases hf : s title r.artist r.info with
  | none => left; simp [offerStep, hf]
  | some u =>
    by_cases hc : u ≠ "" ∧ u ∉ st.buf
    · right; exact ⟨u, hc.2, by simp [offerStep, hf, hc]⟩
    · left; simp [offerStep, hf, hc]

theorem offerStep_len (title : String)
    (s : String → String → String → Option String) (st : RunState) (r : Recording) :
    (offerStep title s st r).buf.length ≤ st.buf.length + 1 := by
  rcases offerStep_buf title s st r with he | ⟨u, _, he⟩
  · rw [he]; omega
  · rw [he]; simp

theorem offerStep_nodup (title : String)
    (s : String → String → String → Option String) (st : RunState) (r : Recording)
    (h : st.buf.Nodup) : (offerStep title s st r).buf.Nodup := by
  rcases offerStep_buf title s st r with he | ⟨u, hu, he⟩
  · rw [he]; exact h
  · rw [he]; simp [List.nodup_append, h, hu]

theorem foldOffer_props (title : String)
    (s : String → String → String → Option String) :
    ∀ (recs : List Recording) (st : RunState),
      ((recs.foldl (offerStep title s) st).buf.length ≤ st.buf.length + recs.length)
      ∧ ((recs.foldl (offerStep title s) st).appends = st.appends)
      ∧ (∀ n, RunEvent.offer n ∈ (recs.foldl (offerStep title s) st).events →
          RunEvent.offer n ∈ st.events ∨ n ≤ st.buf.length + recs.length) := by
  intro recs
  induction recs with
  | nil =>
    intro st
    exact ⟨by simp, rfl, fun n h => Or.inl h⟩
  | cons r rs ih =>
    intro st
    rw [List.foldl_cons]
    obtain ⟨ihlen, ihapp, ihev⟩ := ih (offerStep title s st r)
    have hlen1 := offerStep_len title s st r
    refine ⟨?_, ?_, ?_⟩
    · simp only [List.length_cons]
      omega
    · rw [ihapp, offerStep_appends]
    · intro n hn
      rcases ihev n hn with hin | hle
      · rw [offerStep_events] at hin
        rcases List.mem_append.mp hin with h1 | h2
        · exact Or.inl h1
        · have hn2 : n = (offerStep title s st r).buf.length := by simpa using h2
          right
          simp only [List.length_cons]
          omega
      · right
        simp only [List.length_cons] at hle ⊢
        omega

theorem foldOffer_nodup (title : String)
    (s : String → String → String → Option String) :
    ∀ (recs : List Recording) (st : RunState), st.buf.Nodup →
      (recs.foldl (offerStep title s) st).buf.Nodup := by
  intro recs
  induction recs with
  | nil => intro st h; simpa using h
  | cons r rs ih =>
    intro st h
    rw [List.foldl_cons]
    exact ih _ (offerStep_nodup title s st r h)

/-- Size invariant carried across the standards loop: fewer than 50 uris
pend between standards, every buffer length ever observed is at most 55,
and every batch sent so far held at most 50 uris. -/
def SizeInv (st : RunState) : Prop :=
  st.buf.length ≤ 49
  ∧ (∀ n, RunEvent.offer n ∈ st.events → n ≤ 55)
  ∧ (∀ b ∈ st.appends, b.length ≤ 50)

/-- Duplicate-freedom invariant carried across the standards loop. -/
def NodupInv (st : RunState) : Prop :=
  st.buf.Nodup ∧ ∀ b ∈ st.appends, b.Nodup

theorem scrape_len_le (rawMatches : String → List RawMatch) (url : String) :
    (scrape_recommended_recordings rawMatches url).length ≤ 6 := by
  rw [scrape_recommended_recordings, extractFinal, List.length_take]
  exact min_le_left _ _

theorem processStandard_size (s : String → String → String → Option String)
    (rm : String → List RawMatch) (st : RunState) (w : Work)
    (h : SizeInv st) : SizeInv (processStandard s rm st w) := by
  have h6 := scrape_len_le rm w.url
  cases hs : scrape_recommended_recordings rm w.url with
  | nil => simp only [processStandard, hs]; exact h
  | cons r rs =>
    simp only [processStandard, hs]
    rw [hs] at h6
    obtain ⟨hbuf, hev, happ⟩ := h
    obtain ⟨flen, fapp, fev⟩ := foldOffer_props w.title s (r :: rs) st
    unfold flushCheck
    by_cases hge : 50 ≤ ((r :: rs).foldl (offerStep w.title s) st).buf.length
    · rw [if_pos hge]
      refine ⟨?_, ?_, ?_⟩
      · simp only [List.length_drop]
        omega
      · intro n hn
        simp only [List.mem_append] at hn
        rcases hn with h1 | h1
        · rcases fev n h1 with h2 | h2
          · exact hev n h2
          · omega
        · simp at h1
      · intro b hb
        simp only [List.mem_append] at hb
        rcases hb with h1 | h1
        · rw [fapp] at h1
          exact happ b h1
        · simp only [List.mem_singleton] at h1
          rw [h1, List.length_take]
          exact min_le_left _ _
    · rw [if_neg hge]
      refine ⟨by omega, ?_, ?_⟩
      · intro n hn
        rcases fev n hn with h2 | h2
        · exact hev n h2
        · omega
      · intro b hb
        rw [fapp] at hb
        exact happ b hb

theorem processStandard_nodup (s : String → String → String → Option String)
    (rm : String → List RawMatch) (st : RunState) (w : Work)
    (h : NodupInv st) : NodupInv (processStandard s rm st w) := by
  cases hs : scrape_recommended_recordings rm w.url with
  | nil => simp only [processStandard, hs]; exact h
  | cons r rs =>
    simp only [processStandard, hs]
    obtain ⟨hbuf, happ⟩ := h
    obtain ⟨-, fapp, -⟩ := foldOffer_props w.title s (r :: rs) st
    have hnd := foldOffer_nodup w.title s (r :: rs) st hbuf
    unfold flushCheck
    by_cases hge : 50 ≤ ((r :: rs).foldl (offerStep w.title s) st).buf.length
    · rw [if_pos hge]
      refine ⟨hnd.sublist (List.drop_sublist _ _), ?_⟩
      intro b hb
      simp only [List.mem_append] at hb
      rcases hb with h1 | h1
      · rw [fapp] at h1
        exact happ b h1
      · simp only [List.mem_singleton] at h1
        rw [h1]
        exact hnd.sublist (List.take_sublist _ _)
    · rw [if_neg hge]
      refine ⟨hnd, ?_⟩
      intro b hb
      rw [fapp] at hb
      exact happ b hb

theorem runFold_size (s : String → String → String → Option String)
    (rm : String → List RawMatch) :
    ∀ (ws : List Work) (st : RunState), SizeInv st →
      SizeInv (ws.foldl (processStandard s rm) st) := by
  intro ws
  induction ws with
  | nil => intro st h; exact h
  | cons w ws ih =>
    intro st h
    rw [List.foldl_cons]
    exact ih _ (processStandard_size s rm st w h)

theorem runFold_nodup (s : String → String → String → Option String)
    (rm : String → List RawMatch) :
    ∀ (ws : List Work) (st : RunState), NodupInv st →
      NodupInv (ws.foldl (processStandard s rm) st) := by
  intro ws
  induction ws with
  | nil => intro st h; exact h
  | cons w ws ih =>
    intro st h
    rw [List.foldl_cons]
    exact ih _ (processStandard_nodup s rm st w h)

theorem initRunState_size : SizeInv initRunState :=
  ⟨by simp [initRunState], fun n h => by simp [initRunState] at h,
   fun b h => by simp [initRunState] at h⟩

theorem initRunState_nodup : NodupInv initRunState :=
  ⟨by simp [initRunState], fun b h => by simp [initRunState] at h⟩

theorem finalFlush_events_offer (st : RunState) (n : Nat)
    (h : RunEvent.offer n ∈ (finalFlush st).events) : RunEvent.offer n ∈ st.events := by
  unfold finalFlush at h
  by_cases hb : st.buf = []
  · rwa [if_pos hb] at h
  · rw [if_neg hb] at h
    simp only [List.mem_append] at h
    rcases h with h | h
    · exact h
    · simp at h

theorem finalFlush_appends (st : RunState) (b : List String)
    (h : b ∈ (finalFlush st).appends) : b ∈ st.appends ∨ b = st.buf := by
  unfold finalFlush at h
  by_cases hb : st.buf = []
  · rw [if_pos hb] at h
    exact Or.inl h
  · rw [if_neg hb] at h
    simp only [List.mem_append, List.mem_singleton] at h
    exact h

/-- C2 (amended): deduplication is scoped to the pending buffer, so the
pending buffer never holds the same track id twice and every single batch
handed to the playlist-append call is duplicate-free; a track id offered
again after an intervening flush is no longer covered. -/
theorem run_batches_nodup (standards : List Work) (rawMatches : String → List RawMatch)
    (searchTrack : String → String → String → Option String) :
    ∀ b ∈ (run standards rawMatches searchTrack).appends, b.Nodup := by
  intro b hb
  cases standards with
  | nil => simp [run] at hb
  | cons w ws =>
    have hinv := runFold_nodup searchTrack rawMatches (w :: ws) initRunState initRunState_nodup
    have hb2 : b ∈ (finalFlush ((w :: ws).foldl (processStandard searchTrack rawMatches)
        initRunState)).appends := by
      simpa [run] using hb
    rcases finalFlush_appends _ b hb2 with h | h
    · exact hinv.2 b h
    · rw [h]
      exact hinv.1

/-- Standards for the C2 witness run. -/
def witStandards2 : List Work := [{ title := "S", url := "v" }]

/-- Raw matches for the C2 witness run. -/
def witRaw2 (_url : String) : List RawMatch := [RawMatch.tuple ["Aa", "1"]]

/-- Resolver for the C2 witness run. -/
def witSearch2 (_t _a _i : String) : Option String := some "x"

theorem run_batches_nodup_witness :
    (["x"] ∈ (run witStandards2 witRaw2 witSearch2).appends)
    ∧ (["x"] : List String).Nodup :=
  ⟨by decide, run_batches_nodup witStandards2 witRaw2 witSearch2 ["x"] (by decide)⟩

/-- C6 (amended): the pending buffer can exceed 50 transiently while one
standard is being processed, because the flush check runs only once per
standard; since a page yields at most 6 recordings and at most 49 uris pend
at each standard boundary, no observed buffer length ever exceeds 55. -/
theorem run_buffer_bound (standards : List Work) (rawMatches : String → List RawMatch)
    (searchTrack : String → String → String → Option String) :
    ∀ n, RunEvent.offer n ∈ (run standards rawMatches searchTrack).events → n ≤ 55 := by
  intro n hn
  cases standards with
  | nil => simp [run] at hn
  | cons w ws =>
    have hinv := runFold_size searchTrack rawMatches (w :: ws) initRunState initRunState_size
    have hn2 : RunEvent.offer n ∈ (finalFlush ((w :: ws).foldl
        (processStandard searchTrack rawMatches) initRunState)).events := by
      simpa [run] using hn
    exact hinv.2.1 n (finalFlush_events_offer _ n hn2)

/-- Standards for the C6 witness run. -/
def witStandards6 : List Work := [{ title := "T", url := "u" }]

/-- Raw matches for the C6 witness run: three distinct artists. -/
def witRaw6 (_url : String) : List RawMatch :=
  [RawMatch.tuple ["Aa", "1"], RawMatch.tuple ["Bb", "2"], RawMatch.tuple ["Cc", "3"]]

/-- Resolver for the C6 witness run: the artist name is the uri. -/
def witSearch6 (_t a _i : String) : Option String := some a

theorem run_buffer_bound_witness :
    (RunEvent.offer 3 ∈ (run witStandards6 witRaw6 witSearch6).events) ∧ 3 ≤ 55 :=
  ⟨by decide, run_buffer_bound witStandards6 witRaw6 witSearch6 3 (by decide)⟩

/-- C7: every batch handed to the playlist-append call during a run holds
at most 50 track ids; and the flush step applied to a state with 73 pending
ids sends exactly the first 50 and leaves exactly 23 pending. -/
theorem run_batch_ceiling :
    (∀ (standards : List Work) (rawMatches : String → List RawMatch)
       (searchTrack : String → String → String → Option String),
       ∀ b ∈ (run standards rawMatches searchTrack).appends, b.length ≤ 50)
    ∧ (∀ st : RunState, st.buf.length = 73 →
         (flushCheck st).appends = st.appends ++ [st.buf.take 50]
         ∧ (st.buf.take 50).length = 50
         ∧ (flushCheck st).buf.length = 23) := by
  constructor
  · intro standards rm s b hb
    cases standards with
    | nil => simp [run] at hb
    | cons w ws =>
      have hinv := runFold_size s rm (w :: ws) initRunState initRunState_size
      have hb2 : b ∈ (finalFlush ((w :: ws).foldl (processStandard s rm)
          initRunState)).appends := by
        simpa [run] using hb
      rcases finalFlush_appends _ b hb2 with h | h
      · exact hinv.2.2 b h
      · rw [h]
        have := hinv.1
        omega
  · intro st h73
    have h50 : 50 ≤ st.buf.length := by omega
    unfold flushCheck
    rw [if_pos h50]
    refine ⟨rfl, ?_, ?_⟩
    · simp [List.length_take, h73]
    · simp [List.length_drop, h73]

/-- Standards for the C7 witness run. -/
def witStandards7 : List Work := [{ title := "R", url := "w" }]

/-- Raw matches for the C7 witness run. -/
def witRaw7 (_url : String) : List RawMatch := [RawMatch.tuple ["Bb", "2"]]

/-- Resolver for the C7 witness run. -/
def witSearch7 (_t _a _i : String) : Option String := some "y"

/-- A run state holding 73 pending track ids, for the C7 witness. -/
def st73 : RunState :=
  { buf := (List.range 73).map (fun i => toString i), appends := [], events := [],
    searches := 0 }

theorem run_batch_ceiling_witness :
    ((["y"] ∈ (run witStandards7 witRaw7 witSearch7).appends)
      ∧ (["y"] : List String).length ≤ 50)
    ∧ (st73.buf.length = 73 ∧ (flushCheck st73).buf.length = 23) :=
  ⟨⟨by decide, run_batch_ceiling.1 witStandards7 witRaw7 witSearch7 ["y"] (by decide)⟩,
   ⟨by decide, (run_batch_ceiling.2 st73 (by decide)).2.2⟩⟩

/-- Standards for the shared C2 and C6 counterexample run: ten standards
with urls 0 to 9. -/
def cxStandards : List Work :=
  (List.range 10).map (fun i => { title := "T" ++ toString i, url := toString i })

/-- Raw matches for the counterexample run: six distinct recordings per
page, with the artist dup appearing on page 0 and again on page 9. -/
def cxRaw (u : String) : List RawMatch :=
  (List.range 6).map (fun j =>
    if j = 0 ∧ (u = "0" ∨ u = "9") then RawMatch.tuple ["dup", "i"]
    else RawMatch.tuple [u ++ "x" ++ toString j, "i"])

/-- Resolver for the counterexample run: the artist name is the uri. -/
def cxSearch (_t a _i : String) : Option String := some a

set_option maxRecDepth 100000 in
/-- C2 counterexample: in this run the uri dup is offered on standard 0,
flushed in the 50-batch after standard 8, and offered again on standard 9;
because the membership test only consults the pending buffer, dup is added
again and reaches the playlist twice across the two append calls. -/
theorem assembler_crossflush_cx :
    ((run cxStandards cxRaw cxSearch).appends.flatten).count "dup" = 2
    ∧ (run cxStandards cxRaw cxSearch).appends.length = 2
    ∧ ((run cxStandards cxRaw cxSearch).appends.headD []).length = 50 := by
  decide

set_option maxRecDepth 100000 in
/-- C6 counterexample: in the same run the buffer reaches length 51 while
standard 8 is being processed, before any flush has been triggered, so the
buffer does exceed the batch ceiling of 50 before a flush. -/
theorem assembler_buffer_cx :
    RunEvent.offer 51 ∈ (run cxStandards cxRaw cxSearch).events.takeWhile
      (fun e => !(isFlushEvent e)) := by
  decide
